import Mathlib

/-!
Verification development for the WhatsApp HTTP bridge server
(`src/server.js` and the unnamed batched variant `src/unnamed/part_000`).

The two files share their Connection Lifecycle Supervisor code verbatim
(global variables, `destroyClient`, `checkActiveConnection`,
`handleDisconnection`, `initializeWhatsAppClient`, `startMonitoring`,
`/ping`); they differ in the bulk-dispatch endpoints
(`/api/send-messages` flat vs batched, `/api/send-bulk`,
`/api/send-bulk-qr`).

Modelling conventions:
* The module-level mutable variables are bundled into one structure `St`.
* JavaScript strings are kept as `String` for the supervisor state and as
  `List Char` for recipient-number processing (where the code uses
  `startsWith`, `substring`, `includes` and a digit regex).
* Every provider call (`client.getState()`, `client.sendMessage(...)`,
  `qrcode.toBuffer/toDataURL`) is a suspension point whose outcome is an
  oracle parameter: `Option String` for state queries (`none` = the call
  rejected), `Bool` for send/encode outcomes (`false` = rejected or null).
* Timestamps are `Nat` milliseconds.  JavaScript computes
  `Date.now() - last < K` over integers; with `Nat` truncated subtraction
  the branch taken is the same whenever `now ≥ last`, and when `now < last`
  both give the "too recent" branch, so `Nat` subtraction is faithful.
* `setTimeout(initializeWhatsAppClient, …)` callbacks come in two kinds:
  the one stored in the `reconnectionTimer` variable (counted by
  `reconTimers`) and the anonymous untracked ones (counted by
  `untrackedTimers`).  `setInterval` handles are booleans.
-/

/-- The module-level mutable variables of the server, bundled. -/
structure St where
  qrCodeData : String
  isLoggedIn : Bool
  loggedInNumber : String
  loggedInName : String
  profilePictureUrl : String
  connectionState : String
  client : Bool
  isClientDestroying : Bool
  reconTimers : Nat
  untrackedTimers : Nat
  connCheckTimer : Bool
  lastConnectionAttempt : Nat
  reconnectionAttempts : Nat
  lastKnownState : Option String
  lastActiveTimestamp : Nat
  qrGenerationTime : Nat
  qrAttempts : Nat
  qrAutoRefresh : Bool
deriving DecidableEq, Repr

/-- The state at module load: the initial values of the global variables. -/
def bootState : St where
  qrCodeData := ""
  isLoggedIn := false
  loggedInNumber := ""
  loggedInName := ""
  profilePictureUrl := ""
  connectionState := "INITIALIZING"
  client := false
  isClientDestroying := false
  reconTimers := 0
  untrackedTimers := 0
  connCheckTimer := false
  lastConnectionAttempt := 0
  reconnectionAttempts := 0
  lastKnownState := none
  lastActiveTimestamp := 0
  qrGenerationTime := 0
  qrAttempts := 0
  qrAutoRefresh := false

/-- `destroyClient` (src/server.js lines 54-72).  The awaited
`client.destroy()` may reject, but the `finally` block runs either way, so
the resulting state does not depend on the provider outcome. -/
def destroyClient (s : St) : St :=
  if s.client = true ∧ s.isClientDestroying = false then
    { s with client := false, isClientDestroying := false, isLoggedIn := false,
             connectionState := "DISCONNECTED", profilePictureUrl := "",
             loggedInName := "" }
  else s

/-- `handleDisconnection` (src/server.js lines 107-137): forces
`DISCONNECTED`, clears identity, stops the connection-check interval, and
schedules the tracked reconnection timeout only if none is pending. -/
def handleDisconnection (s : St) : St :=
  { s with connectionState := "DISCONNECTED", isLoggedIn := false,
           loggedInNumber := "", loggedInName := "", profilePictureUrl := "",
           connCheckTimer := false,
           reconTimers := if s.reconTimers = 0 then 1 else s.reconTimers }

/-- Registering one more untracked `setTimeout(initializeWhatsAppClient, …)`
callback. -/
def bumpUntracked (s : St) : St :=
  { s with untrackedTimers := s.untrackedTimers + 1 }

/-- The guarded scheduling `if (!reconnectionTimer) reconnectionTimer =
setTimeout(…)` of the `client.initialize()` catch branch (src/server.js
lines 306-311). -/
def ensureRecon (s : St) : St :=
  if s.reconTimers = 0 then { s with reconTimers := 1 } else s

/-- `reconnectionAttempts++`. -/
def bumpAttempts (s : St) : St :=
  { s with reconnectionAttempts := s.reconnectionAttempts + 1 }

/-- The advisory cap: past `MAX_RECONNECTION_ATTEMPTS = 3` the counter is
reset to zero and the attempt still proceeds. -/
def capAttempts (s : St) : St :=
  if 3 < s.reconnectionAttempts then { s with reconnectionAttempts := 0 }
  else s

/-- The state-dispatch of `checkActiveConnection` on a successful
`client.getState()` result (src/server.js lines 86-95): `CONNECTED`
confirms, `DISCONNECTED` routes to the disconnection handler, any other
observed value is recorded verbatim as the current state. -/
def applyLiveState (st : String) (s : St) : St :=
  if st = "CONNECTED" then { s with connectionState := "CONNECTED" }
  else if st = "DISCONNECTED" then handleDisconnection s
  else { s with connectionState := st }

/-- `checkActiveConnection` (src/server.js lines 75-105).  `res` is the
outcome of `client.getState()` (`none` = the call rejected). -/
def checkActiveConnection (now : Nat) (res : Option String) (s : St) : St :=
  if s.client = false ∨ s.isLoggedIn = false then s
  else
    match res with
    | some st =>
      applyLiveState st { s with lastKnownState := some st,
                                 lastActiveTimestamp := now }
    | none =>
      if 30000 < now - s.lastActiveTimestamp then handleDisconnection s else s

/-- `initializeWhatsAppClient` (src/server.js lines 166-313), up to and
including the synchronous part that creates the fresh `Client` instance.
Returns the new state and whether a session-creation attempt was actually
performed.  The asynchronous completion of `client.initialize()` is a
separate event (`Ev.settleInit`). -/
def initClient (now : Nat) (s : St) : St × Bool :=
  if s.client = true ∨ s.isClientDestroying = true then (s, false)
  else if now - s.lastConnectionAttempt < 30000 then (s, false)
  else
    ({ s with lastConnectionAttempt := now, connectionState := "INITIALIZING",
              isLoggedIn := false, qrCodeData := "", qrAttempts := 0,
              client := true }, true)

/-- Provider events, timer firings and asynchronous call completions the
Supervisor reacts to.  Each carries the data the handler reads: the current
time where the handler calls `Date.now()`, and the outcome of awaited
provider calls. -/
inductive Ev where
  /-- `client.on(qr)`: raw token `qr`, outcome of `qrcode.toDataURL`
  (`none` = the conversion threw), time of `Date.now()`. -/
  | qrEvent (qr : String) (enc : Option String) (now : Nat)
  /-- `client.on(authenticated)`. -/
  | authDone
  /-- `client.on(auth_failure)`. -/
  | authFail
  /-- `client.on(ready)`: connected number, profile-name and picture fetch
  outcomes (`none` = the lookup failed and the fallback is used), time. -/
  | readyEv (num : String) (name : Option String) (pic : Option String) (now : Nat)
  /-- `client.on(disconnected)`. -/
  | disconn
  /-- `client.on(change_state)` with the provider state string. -/
  | changeState (st : String)
  /-- `client.on(change_battery)`. -/
  | changeBattery (now : Nat)
  /-- Completion of the awaited `client.initialize()` call
  (`ok = false` = it threw, taking the catch branch). -/
  | settleInit (ok : Bool)
  /-- The tracked `reconnectionTimer` timeout fires. -/
  | reconFire (now : Nat)
  /-- One of the untracked `setTimeout(initializeWhatsAppClient, …)`
  callbacks fires. -/
  | untrackedFire (now : Nat)
  /-- The `connectionCheckTimer` interval fires; `res` is the
  `client.getState()` outcome. -/
  | connCheckFire (res : Option String) (now : Nat)
  /-- The `monitoringTimer` interval fires; `res` is the
  `client.getState()` outcome. -/
  | monitorFire (res : Option String) (now : Nat)
deriving DecidableEq

/-- The qr-data update of the `client.on(qr)` handler (src/server.js
lines 210-222): a nonempty token other than the literal string undefined
is rendered; rendering failure clears the artifact. -/
def onQrData (qr : String) (enc : Option String) (now : Nat) (s : St) : St :=
  if qr ≠ "" ∧ qr.trim ≠ "undefined" then
    match enc with
    | some url => { s with qrCodeData := url, qrGenerationTime := now,
                           connectionState := "QR_READY" }
    | none => { s with qrCodeData := "", connectionState := "QR_ERROR" }
  else s

/-- The burst check of the `client.on(qr)` handler (src/server.js lines
225-233): past 5 emissions the client is destroyed and an untracked
restart timeout scheduled. -/
def onQrFinish (s : St) : St :=
  if 5 < s.qrAttempts then bumpUntracked (destroyClient s) else s

/-- The `client.on(qr)` handler (src/server.js lines 205-234):
`qrAttempts++`, then the qr-data update, then the burst check. -/
def onQr (qr : String) (enc : Option String) (now : Nat) (s : St) : St :=
  onQrFinish (onQrData qr enc now { s with qrAttempts := s.qrAttempts + 1 })

/-- The `client.on(ready)` handler (src/server.js lines 253-274), with
`fetchProfileInfo` inlined (its failures fall back to placeholder values
and never block the connected transition). -/
def onReady (num : String) (name : Option String) (pic : Option String)
    (now : Nat) (s : St) : St :=
  { s with isLoggedIn := true, connectionState := "CONNECTED",
           reconnectionAttempts := 0, lastActiveTimestamp := now,
           qrAttempts := 0, loggedInNumber := num,
           loggedInName := name.getD "WhatsApp User",
           profilePictureUrl := pic.getD "",
           connCheckTimer := true }

/-- The body of the `monitoringTimer` interval (src/server.js lines
321-382). -/
def onMonitor (res : Option String) (now : Nat) (s : St) : St :=
  if s.qrCodeData ≠ "" ∧ s.isLoggedIn = false ∧ s.qrAutoRefresh = true ∧
      300000 < now - s.qrGenerationTime then
    bumpUntracked (destroyClient
      { s with qrCodeData := "", connectionState := "QR_EXPIRED" })
  else if s.isLoggedIn = true then
    if s.client = true then
      match res with
      | some st => { s with lastKnownState := some st, lastActiveTimestamp := now }
      | none =>
        if 30000 < now - s.lastActiveTimestamp then handleDisconnection s else s
    else { s with isLoggedIn := false, connectionState := "DISCONNECTED" }
  else
    if s.client = false ∧ s.isClientDestroying = false ∧ s.reconTimers = 0 then
      (initClient now (capAttempts (bumpAttempts s))).1
    else s

/-- One cooperative turn of the event loop.  Handlers registered with
`client.on` only fire while the client object exists. -/
def step (e : Ev) (s : St) : St :=
  match e with
  | .qrEvent qr enc now => if s.client = false then s else onQr qr enc now s
  | .authDone =>
    if s.client = false then s
    else { s with connectionState := "AUTHENTICATED", qrCodeData := "",
                  qrAttempts := 0 }
  | .authFail =>
    if s.client = false then s
    else bumpUntracked (handleDisconnection s)
  | .readyEv num name pic now =>
    if s.client = false then s else onReady num name pic now s
  | .disconn => if s.client = false then s else handleDisconnection s
  | .changeState st =>
    if s.client = false then s
    else
      let s1 := { s with lastKnownState := some st }
      if st = "DISCONNECTED" then handleDisconnection s1 else s1
  | .changeBattery now =>
    if s.client = false then s else { s with lastActiveTimestamp := now }
  | .settleInit ok =>
    if s.client = false then s
    else if ok then s
    else ensureRecon (handleDisconnection s)
  | .reconFire now =>
    if s.reconTimers = 0 then s
    else (initClient now (capAttempts
      (bumpAttempts { s with reconTimers := s.reconTimers - 1 }))).1
  | .untrackedFire now =>
    if s.untrackedTimers = 0 then s
    else (initClient now { s with untrackedTimers := s.untrackedTimers - 1 }).1
  | .connCheckFire res now =>
    if s.connCheckTimer = true then checkActiveConnection now res s else s
  | .monitorFire res now => onMonitor res now s

/-- Run a sequence of events. -/
def runEvs (evs : List Ev) (s : St) : St := evs.foldl (fun t e => step e t) s

/-- The state after the boot call `initializeWhatsAppClient()` made at
module load at wall-clock time `t0`. -/
def startup (t0 : Nat) : St := (initClient t0 bootState).1

/-- The nine `ConnectionState` values enumerated by the specification. -/
def specStates : List String :=
  ["INITIALIZING", "PAIRING_READY", "PAIRING_EXPIRED", "AUTHENTICATED",
   "CONNECTED", "DISCONNECTED", "RESETTING", "LOGGED_OUT", "ERROR"]

/-- The connection-state names the code itself assigns as literals. -/
def codeStates : List String :=
  ["INITIALIZING", "QR_READY", "QR_ERROR", "QR_EXPIRED", "AUTHENTICATED",
   "CONNECTED", "DISCONNECTED", "RESETTING", "LOGGED_OUT", "GENERATING_QR"]

/-- The provider state strings an event can write into `connectionState`
verbatim (only the `checkActiveConnection` grace-period branch does so). -/
def evStates : Ev → List String
  | .connCheckFire (some st) _ => [st]
  | _ => []

/-- All provider strings a run can record as the connection state. -/
def providerStrings (evs : List Ev) : List String :=
  (evs.map evStates).flatten

/-- `GET /ping` response (src/server.js lines 386-416): HTTP status code
and the JSON body fields.  `res` is the `client.getState()` outcome. -/
structure PingResp where
  status : Nat
  success : Bool
  stateField : String
  message : String
deriving DecidableEq

/-- The `GET /ping` handler (src/server.js lines 386-416). -/
def pingHandler (s : St) (res : Option String) : PingResp :=
  if s.isLoggedIn = false ∨ s.client = false then
    ⟨200, false, s.connectionState, "WhatsApp not connected"⟩
  else
    match res with
    | some st => ⟨200, true, st, "Connection active"⟩
    | none => ⟨200, false, "ERROR", "Failed to check state"⟩

/-!
## Bulk Dispatch Engine

Recipient numbers are modelled as `List Char`; the JavaScript operations
used are `startsWith(c)` (head check), `substring(1)` (tail),
string concatenation, `includes(pat)` (substring test) and the regex
`^\d+@c\.us$` (nonempty digits followed by the routing suffix).
-/

/-- The provider routing-domain marker appended to every number. -/
def routingSuffix : List Char := "@c.us".toList

/-- Whether `l` starts with the pattern `pat` (character-wise). -/
def startsWithSeq : List Char → List Char → Bool
  | [], _ => true
  | _ :: _, [] => false
  | p :: ps, x :: xs => p == x && startsWithSeq ps xs

/-- Whether `pat` occurs as a contiguous subsequence of `l`
(JavaScript `l.includes(pat)`). -/
def hasSub (pat : List Char) : List Char → Bool
  | [] => startsWithSeq pat []
  | x :: xs => startsWithSeq pat (x :: xs) || hasSub pat xs

/-- Number formatting in `POST /api/send-messages` (src/server.js lines
921-923 and src/unnamed/part_000 lines 1184-1186) and in
`POST /api/send-bulk` (src/unnamed/part_000 line 1469): strip a leading
plus sign, then always append the routing suffix. -/
def fmtSendMessages (n : List Char) : List Char :=
  if n.head? = some '+' then n.tail ++ routingSuffix else n ++ routingSuffix

/-- Number formatting in `POST /api/send-bulk-qr` (src/unnamed/part_000
lines 1722-1730): a number already containing the routing suffix is passed
through; otherwise a leading plus sign is stripped and the suffix
appended. -/
def fmtBulkQr (n : List Char) : List Char :=
  if hasSub routingSuffix n then n
  else if n.head? = some '+' then n.tail ++ routingSuffix
  else n ++ routingSuffix

/-- The validation regex `^\d+@c\.us$` of `POST /api/send-bulk-qr`
(src/unnamed/part_000 line 1733): one or more digits followed by exactly
the routing suffix. -/
def validFmt (n : List Char) : Bool :=
  startsWithSeq routingSuffix.reverse n.reverse &&
    decide (1 ≤ n.length - 5) &&
    (n.take (n.length - 5)).all Char.isDigit

/-- One send request as submitted to the bulk endpoints: the raw recipient
number and whether the item carries `qrData` (attachment payload). -/
structure MsgItem where
  number : List Char
  hasQr : Bool
deriving DecidableEq

/-- Outcomes of the awaited calls made while processing one item of
`/api/send-messages`: whether `generateQRCode` produced a buffer
(`false` covers both the 5-second timeout and an encoder error, which the
function catches and converts to `null`), and the outcome of the k-th
`client.sendMessage` call for the item. -/
structure ItemOracle where
  encodeOk : Bool
  sendOk : Nat → Bool

/-- Observable actions of a dispatch run, tagged with the 0-based index of
the item being processed. -/
inductive Act where
  /-- a `generateQRCode` call and its outcome -/
  | enc (idx : Nat) (ok : Bool)
  /-- a `client.sendMessage(number, media, caption)` call -/
  | sendMedia (idx : Nat) (target : List Char) (ok : Bool)
  /-- a `client.sendMessage(number, message)` text call -/
  | sendText (idx : Nat) (target : List Char) (ok : Bool)
  /-- the inter-item delay inside a batch -/
  | itemDelay
  /-- the inter-batch delay -/
  | batchDelay
deriving DecidableEq

/-- The item index an action belongs to (`none` for pacing delays). -/
def actIdx : Act → Option Nat
  | .enc i _ => some i
  | .sendMedia i _ _ => some i
  | .sendText i _ _ => some i
  | .itemDelay => none
  | .batchDelay => none

/-- The item indices of a trace, in occurrence order. -/
def itemIndices (l : List Act) : List Nat := l.filterMap actIdx

/-- Processing of one item of `POST /api/send-messages` (src/server.js
lines 917-962, identical body in src/unnamed/part_000 lines 1180-1229):
the action trace and whether `successCount` (`true`) or `failCount`
(`false`) is incremented.  Every branch of the `try`/`catch` nest
increments exactly one of the two counters. -/
def itemRun (i : Nat) (m : MsgItem) (o : ItemOracle) : List Act × Bool :=
  let fn := fmtSendMessages m.number
  if m.hasQr then
    if o.encodeOk then
      if o.sendOk 0 then ([Act.enc i true, Act.sendMedia i fn true], true)
      else if o.sendOk 1 then
        ([Act.enc i true, Act.sendMedia i fn false, Act.sendText i fn true], true)
      else
        ([Act.enc i true, Act.sendMedia i fn false, Act.sendText i fn false], false)
    else
      if o.sendOk 0 then ([Act.enc i false, Act.sendText i fn true], true)
      else if o.sendOk 1 then
        ([Act.enc i false, Act.sendText i fn false, Act.sendText i fn true], true)
      else
        ([Act.enc i false, Act.sendText i fn false, Act.sendText i fn false], false)
  else
    if o.sendOk 0 then ([Act.sendText i fn true], true)
    else ([Act.sendText i fn false], false)

/-- The success/failure counters accumulated by the per-item loop starting
at item index `i` (the `successCount`/`failCount` pair). -/
def loopCounts (i : Nat) (l : List MsgItem) (o : Nat → ItemOracle) : Nat × Nat :=
  match l with
  | [] => (0, 0)
  | m :: rest =>
    let r := loopCounts (i + 1) rest o
    if (itemRun i m (o i)).2 then (r.1 + 1, r.2) else (r.1, r.2 + 1)

/-- The action trace of one batch of the batched `/api/send-messages` loop
(src/unnamed/part_000 lines 1180-1235): items in order, with the
`MESSAGE_DELAY` pause between any two consecutive items of the batch. -/
def runSeq (i : Nat) (l : List MsgItem) (o : Nat → ItemOracle) : List Act :=
  match l with
  | [] => []
  | [m] => (itemRun i m (o i)).1
  | m :: m2 :: rest =>
    (itemRun i m (o i)).1 ++ [Act.itemDelay] ++ runSeq (i + 1) (m2 :: rest) o

/-- The batched `/api/send-messages` engine (src/unnamed/part_000 lines
1165-1248): `BATCH_SIZE = 20` items per batch, processed strictly in
order, with the `BATCH_DELAY` pause after every batch that is not the
last.  Returns the action trace and the final counters. -/
def runBatched (l : List MsgItem) (i : Nat) (o : Nat → ItemOracle) :
    List Act × Nat × Nat :=
  match l with
  | [] => ([], 0, 0)
  | x :: xs =>
    let b := x :: xs.take 19
    let r := xs.drop 19
    let c := loopCounts i b o
    let rest := runBatched r (i + b.length) o
    (runSeq i b o ++ (if r.isEmpty then [] else [Act.batchDelay]) ++ rest.1,
     c.1 + rest.2.1, c.2 + rest.2.2)
termination_by l.length
decreasing_by simp; omega

/-- The schedule the specification expects for a 45-item job with batch
size 20: three batches in order with the inter-batch delay after the first
and the second batch only.  Stated from the specification scenario, to be
compared with the trace `runBatched` actually produces. -/
def specBatchSchedule (l : List MsgItem) (o : Nat → ItemOracle) : List Act :=
  runSeq 0 (l.take 20) o ++ [Act.batchDelay] ++
    runSeq 20 ((l.drop 20).take 20) o ++ [Act.batchDelay] ++
    runSeq 40 (l.drop 40) o

/-!
## `POST /api/send-bulk-qr` per-item delivery

(src/unnamed/part_000 lines 1717-1839.)  Each item runs an outer
`while (!success && attempts < MAX_ATTEMPTS)` loop with
`MAX_ATTEMPTS = 2`; inside it, a QR item runs an inner
`while (!qrImageBuffer && qrAttempt < 2)` encode loop that retries a
failed encode once after a 2-second wait.  `generateQRCode` itself never
throws: it converts encoder errors and its 8-second timeout to `null`.
-/

/-- Outcomes of the awaited calls of one `/api/send-bulk-qr` item: the
k-th `generateQRCode` call (`false` = returned `null`), and the k-th
`client.sendMessage` call. -/
structure QrOracle where
  encode : Nat → Bool
  send : Nat → Bool

/-- Observable actions of one `/api/send-bulk-qr` item. -/
inductive QAct where
  /-- a `generateQRCode` call and whether it produced a buffer -/
  | qEnc (ok : Bool)
  /-- a media send (image with caption) -/
  | qMedia (ok : Bool)
  /-- a plain text send -/
  | qText (ok : Bool)
  /-- an `await setTimeout` pause of the given milliseconds -/
  | qWait (ms : Nat)
deriving DecidableEq

/-- Number of `generateQRCode` calls in a trace. -/
def countEnc (l : List QAct) : Nat :=
  l.countP (fun a => match a with | .qEnc _ => true | _ => false)

/-- Whether a trace contains any `client.sendMessage` call. -/
def hasSend (l : List QAct) : Bool :=
  l.any (fun a => match a with | .qMedia _ => true | .qText _ => true | _ => false)

/-- The outer delivery-attempt loop of one `/api/send-bulk-qr` item.
`fuel` is the number of attempts still allowed (`MAX_ATTEMPTS -
attempts`, initially 2); `isLast` below is true exactly when the
just-started attempt is the final one, i.e. when the code's
`attempts >= MAX_ATTEMPTS` checks succeed.  `ec`/`sc` index the next
encode/send oracle outcome.  Returns the action trace and the final
`success` flag. -/
def qrOuter (hasQr : Bool) (o : QrOracle) : Nat → Nat → Nat → List QAct × Bool
  | 0, _, _ => ([], false)
  | Nat.succ f, ec, sc =>
    let isLast := f = 0
    if hasQr then
      if o.encode ec then
        if o.send sc then ([.qEnc true, .qMedia true], true)
        else
          if isLast then
            if o.send (sc + 1) then
              ([.qEnc true, .qMedia false, .qText true], true)
            else ([.qEnc true, .qMedia false, .qText false], false)
          else
            let rest := qrOuter hasQr o f (ec + 1) (sc + 1)
            ([.qEnc true, .qMedia false, .qWait 3000] ++ rest.1, rest.2)
      else
        if o.encode (ec + 1) then
          if o.send sc then
            ([.qEnc false, .qWait 2000, .qEnc true, .qMedia true], true)
          else
            if isLast then
              if o.send (sc + 1) then
                ([.qEnc false, .qWait 2000, .qEnc true, .qMedia false,
                  .qText true], true)
              else
                ([.qEnc false, .qWait 2000, .qEnc true, .qMedia false,
                  .qText false], false)
            else
              let rest := qrOuter hasQr o f (ec + 2) (sc + 1)
              ([.qEnc false, .qWait 2000, .qEnc true, .qMedia false,
                .qWait 3000] ++ rest.1, rest.2)
        else
          if isLast then
            if o.send sc then
              ([.qEnc false, .qWait 2000, .qEnc false, .qText true], true)
            else ([.qEnc false, .qWait 2000, .qEnc false, .qText false], false)
          else
            let rest := qrOuter hasQr o f (ec + 2) sc
            ([.qEnc false, .qWait 2000, .qEnc false, .qWait 3000] ++ rest.1,
             rest.2)
    else
      if o.send sc then ([.qText true], true)
      else
        if isLast then ([.qText false], false)
        else
          let rest := qrOuter hasQr o f ec (sc + 1)
          ([.qText false, .qWait 3000] ++ rest.1, rest.2)

/-- One item of `POST /api/send-bulk-qr`: format the number, validate it
against `^\d+@c\.us$` (an invalid number increments `failCount` and is
skipped with `continue`, before any provider call), then run the delivery
attempts.  Returns the trace and the `(successCount, failCount)`
increments. -/
def bulkQrItem (m : MsgItem) (o : QrOracle) : List QAct × Nat × Nat :=
  if validFmt (fmtBulkQr m.number) then
    let r := qrOuter m.hasQr o 2 0 0
    (r.1, if r.2 then (1, 0) else (0, 1))
  else ([], 0, 1)

/-!
## `POST /api/send-bulk` batch loop

(src/unnamed/part_000 lines 1434-1551.)  `MESSAGE_BATCH_SIZE = 8`; the
items of one batch run as concurrently started promises (with staggered
starts), each recording its terminal outcome when `sendMessageWithRetry`
finishes; the loop `await`s `Promise.all` of the whole batch before the
inter-batch delay and the next batch.  The within-batch completion order
is therefore scheduler-chosen: it is modelled by a permutation parameter
applied to each batch's outcome block.
-/

/-- The terminal outcome records of one batch, in submission order.
`ok i` is the terminal outcome of item `i` after the internal
single-retry of `sendMessageWithRetry`. -/
def batchOutcomes (i : Nat) (b : List MsgItem) (ok : Nat → Bool) :
    List (Nat × Bool) :=
  match b with
  | [] => []
  | _ :: rest => (i, ok i) :: batchOutcomes (i + 1) rest ok

/-- Observable actions of the `/api/send-bulk` engine. -/
inductive BAct where
  /-- item `idx` reached its terminal outcome -/
  | bOut (idx : Nat) (ok : Bool)
  /-- the inter-batch delay -/
  | bDelay
deriving DecidableEq

/-- The item indices of a `/api/send-bulk` trace, in completion order. -/
def bIndices (l : List BAct) : List Nat :=
  l.filterMap (fun a => match a with | .bOut i _ => some i | .bDelay => none)

/-- The `/api/send-bulk` batch loop: batches of 8 items in submission
order; each batch's outcomes complete in the scheduler-chosen order
`σ (batch)`, all of them before the inter-batch delay (inserted only when
more batches remain) and the next batch. -/
def sendBulkGo (l : List MsgItem) (i : Nat) (ok : Nat → Bool)
    (σ : List (Nat × Bool) → List (Nat × Bool)) : List BAct :=
  match l with
  | [] => []
  | x :: xs =>
    (σ (batchOutcomes i (x :: xs.take 7) ok)).map (fun p => BAct.bOut p.1 p.2) ++
      (if (xs.drop 7).isEmpty then [] else [BAct.bDelay]) ++
      sendBulkGo (xs.drop 7) (i + (x :: xs.take 7).length) ok σ
termination_by l.length
decreasing_by simp; omega

/-- A concrete believed-connected state whose last successful liveness
check happened at t = 1000 ms. -/
def connectedSt : St :=
  { bootState with
    client := true, isLoggedIn := true, lastActiveTimestamp := 1000 }

/-- Number of `generateQRCode` calls in an `/api/send-messages` item
trace. -/
def countEncA (l : List Act) : Nat :=
  l.countP (fun a => match a with | .enc _ _ => true | _ => false)

/-- Whether an `/api/send-messages` item trace contains a plain text
send. -/
def hasSendText (l : List Act) : Bool :=
  l.any (fun a => match a with | .sendText _ _ _ => true | _ => false)

/-!
## Theorems
-/

/-- Claim C5: `stop()` (the teardown operation `destroyClient`) is
idempotent — running it twice from any state yields exactly the state of
running it once — and a call made while teardown is already in progress
(`isClientDestroying` set) is a no-op. -/
theorem destroyClient_idempotent :
    (∀ s : St, destroyClient (destroyClient s) = destroyClient s) ∧
    (∀ s : St, s.isClientDestroying = true → destroyClient s = s) := by
  constructor
  · intro s
    by_cases h : s.client = true ∧ s.isClientDestroying = false
    · simp [destroyClient, h]
    · simp [destroyClient, h]
  · intro s h
    simp [destroyClient, h]

/-- Witness for C5: the in-progress-teardown clause at a concrete state. -/
theorem destroyClient_idempotent_witness :
    ({ bootState with isClientDestroying := true } : St).isClientDestroying = true ∧
    destroyClient { bootState with isClientDestroying := true } =
      { bootState with isClientDestroying := true } :=
  ⟨rfl, destroyClient_idempotent.2 _ rfl⟩

/-- Claim C6: a first `start()` call from an idle state with the minimum
reconnect interval elapsed performs a session-creation attempt, and a
second call made while the client from the first still exists returns
without creating a session or changing any state; moreover any call made
while a client exists or teardown is in progress, or within the minimum
interval of the previous attempt, returns the state unchanged with no
creation. -/
theorem initClient_second_call_noop :
    (∀ (s : St) (t1 t2 : Nat), s.client = false → s.isClientDestroying = false →
      30000 ≤ t1 - s.lastConnectionAttempt →
      (initClient t1 s).2 = true ∧
      initClient t2 (initClient t1 s).1 = ((initClient t1 s).1, false)) ∧
    (∀ (s : St) (t : Nat), s.client = true ∨ s.isClientDestroying = true →
      initClient t s = (s, false)) ∧
    (∀ (s : St) (t : Nat), t - s.lastConnectionAttempt < 30000 →
      initClient t s = (s, false)) := by
  refine ⟨?_, ?_, ?_⟩
  · intro s t1 t2 h1 h2 h3
    have hc : ¬(s.client = true ∨ s.isClientDestroying = true) := by simp [h1, h2]
    have hi : ¬(t1 - s.lastConnectionAttempt < 30000) := by omega
    refine ⟨?_, ?_⟩
    · simp [initClient, hc, hi]
    · simp [initClient, hc, hi]
  · intro s t h
    simp [initClient, h]
  · intro s t h
    by_cases hc : s.client = true ∨ s.isClientDestroying = true
    · simp [initClient, hc]
    · simp [initClient, hc, h]

/-- Witness for C6 at the boot state and times 30000 and 30005
(closer together than the 30000 ms minimum interval). -/
theorem initClient_second_call_noop_witness :
    bootState.client = false ∧ bootState.isClientDestroying = false ∧
    30000 ≤ 30000 - bootState.lastConnectionAttempt ∧
    ((initClient 30000 bootState).2 = true ∧
     initClient 30005 (initClient 30000 bootState).1 =
       ((initClient 30000 bootState).1, false)) :=
  ⟨rfl, rfl, by decide,
   initClient_second_call_noop.1 bootState 30000 30005 rfl rfl (by decide)⟩

/-- Claim C7: while believed connected, a single failed liveness query
changes nothing if some check succeeded within the 30-second silence
window; only when the window is exceeded does the disconnection handler
run.  Stated both for `checkActiveConnection` (the 15-second interval) and
for the monitoring interval's error branch. -/
theorem liveness_grace_window :
    (∀ (s : St) (now : Nat), s.client = true → s.isLoggedIn = true →
      now - s.lastActiveTimestamp ≤ 30000 →
      checkActiveConnection now none s = s) ∧
    (∀ (s : St) (now : Nat), s.client = true → s.isLoggedIn = true →
      30000 < now - s.lastActiveTimestamp →
      checkActiveConnection now none s = handleDisconnection s) ∧
    (∀ (s : St) (now : Nat), s.client = true → s.isLoggedIn = true →
      now - s.lastActiveTimestamp ≤ 30000 →
      step (Ev.monitorFire none now) s = s) ∧
    (∀ (s : St) (now : Nat), s.client = true → s.isLoggedIn = true →
      30000 < now - s.lastActiveTimestamp →
      step (Ev.monitorFire none now) s = handleDisconnection s) := by
  refine ⟨?_, ?_, ?_, ?_⟩
  · intro s now hc hl hw
    have h1 : ¬(s.client = false ∨ s.isLoggedIn = false) := by simp [hc, hl]
    have h2 : ¬(30000 < now - s.lastActiveTimestamp) := by omega
    simp [checkActiveConnection, h1, h2]
  · intro s now hc hl hw
    have h1 : ¬(s.client = false ∨ s.isLoggedIn = false) := by simp [hc, hl]
    simp [checkActiveConnection, h1, hw]
  · intro s now hc hl hw
    have h2 : ¬(30000 < now - s.lastActiveTimestamp) := by omega
    simp [step, onMonitor, hc, hl, h2]
  · intro s now hc hl hw
    simp [step, onMonitor, hc, hl, hw]

/-- Witness for C7: at `connectedSt`, one failed check inside the window
(nothing happens) and one outside it (handler runs). -/
theorem liveness_grace_window_witness :
    (connectedSt.client = true ∧
     checkActiveConnection 20000 none connectedSt = connectedSt) ∧
    checkActiveConnection 40000 none connectedSt =
      handleDisconnection connectedSt :=
  ⟨⟨rfl, liveness_grace_window.1 _ 20000 rfl rfl (by decide)⟩,
   liveness_grace_window.2.1 _ 40000 rfl rfl (by decide)⟩

/-- Claim C10: the `GET /ping` handler answers HTTP 200 in all three
branches — not connected, state query succeeded, state query threw — and
the outcome is encoded solely in the `success` flag of the body. -/
theorem ping_always_200 :
    ∀ (s : St) (res : Option String),
      (pingHandler s res).status = 200 ∧
      (pingHandler s res).success = (s.isLoggedIn && s.client && res.isSome) := by
  intro s res
  cases hl : s.isLoggedIn <;> cases hc : s.client <;> cases res <;>
    simp [pingHandler, hl, hc]

/-- Counterexample for C3: the `/api/send-messages` normalization (cited
by the claim) does not pass an already-canonical target through — it
appends the routing marker a second time. -/
theorem canonical_target_not_passed_through :
    fmtSendMessages ("15551234567@c.us".toList) ≠ "15551234567@c.us".toList := by
  decide

/-- Claim C3 as amended: only the `/api/send-bulk-qr` normalization passes
a target containing the routing suffix through unchanged; the
`/api/send-messages` normalization strips a leading plus sign and appends
the suffix unconditionally (so a canonical target receives it twice); in
both, a plus-prefixed target and its bare form normalize identically, and
in particular the two spec targets map to the same canonical address. -/
theorem normalization_amended :
    (∀ n : List Char, hasSub routingSuffix n = true → fmtBulkQr n = n) ∧
    (∀ n : List Char, n.head? ≠ some '+' →
      fmtSendMessages ('+' :: n) = fmtSendMessages n) ∧
    (fmtSendMessages ("+15551234567".toList) =
       fmtSendMessages ("15551234567".toList) ∧
     fmtBulkQr ("+15551234567".toList) = fmtBulkQr ("15551234567".toList) ∧
     fmtSendMessages ("+15551234567".toList) = "15551234567@c.us".toList ∧
     fmtBulkQr ("+15551234567".toList) = "15551234567@c.us".toList) := by
  refine ⟨?_, ?_, by decide⟩
  · intro n h
    simp [fmtBulkQr, h]
  · intro n h
    simp [fmtSendMessages, h]

/-- Witness for C3 (amended): the pass-through clause at a canonical
target and the plus-stripping clause at the spec's example target. -/
theorem normalization_amended_witness :
    (hasSub routingSuffix ("15551234567@c.us".toList) = true ∧
     fmtBulkQr ("15551234567@c.us".toList) = "15551234567@c.us".toList) ∧
    (("15551234567".toList : List Char).head? ≠ some '+' ∧
     fmtSendMessages ('+' :: "15551234567".toList) =
       fmtSendMessages ("15551234567".toList)) :=
  ⟨⟨by decide, normalization_amended.1 _ (by decide)⟩,
   ⟨by decide, normalization_amended.2.1 _ (by decide)⟩⟩

/-- Counterexample for C4: in `/api/send-messages` (cited by the claim) a
target that fails the digit pattern after normalization is NOT rejected —
a `client.sendMessage` delivery attempt is made for it, and on provider
success the item counts as a success, not `Failed(invalid-address)`. -/
theorem invalid_target_still_attempted :
    validFmt (fmtSendMessages ("abc".toList)) = false ∧
    itemRun 0 ⟨"abc".toList, false⟩ ⟨true, fun _ => true⟩ =
      ([Act.sendText 0 ("abc@c.us".toList) true], true) := by
  exact ⟨by decide, by decide⟩

/-- Claim C4 as amended: in `/api/send-bulk-qr` an item whose formatted
number fails `^\d+@c\.us$` is counted as failed and skipped with no
provider call of any kind; `/api/send-messages` performs no such
validation. -/
theorem invalid_target_skipped_bulk_qr :
    ∀ (m : MsgItem) (o : QrOracle), validFmt (fmtBulkQr m.number) = false →
      bulkQrItem m o = ([], 0, 1) := by
  intro m o h
  simp [bulkQrItem, h]

/-- Witness for C4 (amended) at the invalid target used in the
counterexample. -/
theorem invalid_target_skipped_bulk_qr_witness :
    validFmt (fmtBulkQr ("abc".toList)) = false ∧
    bulkQrItem ⟨"abc".toList, true⟩ ⟨fun _ => true, fun _ => true⟩ =
      ([], 0, 1) :=
  ⟨by decide, invalid_target_skipped_bulk_qr _ _ (by decide)⟩

/-- Counterexample for C8: with a persistently failing encoder, the
`/api/send-bulk-qr` loop calls the encoder four times (two per delivery
attempt, two attempts) before falling back to text — not the one retry
(two calls in total) the claim states — and the `/api/send-messages` path
calls it exactly once, retrying zero times. -/
theorem encode_retry_count_counterexample :
    countEnc (bulkQrItem ⟨"15551234567".toList, true⟩
      ⟨fun _ => false, fun _ => true⟩).1 = 4 ∧
    countEncA (itemRun 0 ⟨"15551234567".toList, true⟩
      ⟨false, fun _ => true⟩).1 = 1 := by
  exact ⟨by decide, by decide⟩

/-- Claim C8 as amended: in `/api/send-bulk-qr`, each of the (at most two)
delivery attempts retries a failed encode once after a 2-second wait, so a
persistently failing encoder is called four times in all; the item then
falls back to sending the text body alone, succeeding iff that text send
succeeds — it is never marked failed because of the encode alone.  In
`/api/send-messages` a failed encode is never retried: the engine falls
back to the text body immediately. -/
theorem encode_retry_amended :
    (∀ send : Nat → Bool,
      countEnc (qrOuter true ⟨fun _ => false, send⟩ 2 0 0).1 = 4 ∧
      (qrOuter true ⟨fun _ => false, send⟩ 2 0 0).2 = send 0 ∧
      (qrOuter true ⟨fun _ => false, send⟩ 2 0 0).1.getLast? =
        some (QAct.qText (send 0))) ∧
    (∀ (i : Nat) (n : List Char) (sOk : Nat → Bool),
      countEncA (itemRun i ⟨n, true⟩ ⟨false, sOk⟩).1 = 1 ∧
      hasSendText (itemRun i ⟨n, true⟩ ⟨false, sOk⟩).1 = true) := by
  constructor
  · intro send
    cases h : send 0 <;>
      simp [qrOuter, countEnc, h]
  · intro i n sOk
    cases h0 : sOk 0 <;> cases h1 : sOk 1 <;>
      simp [itemRun, countEncA, hasSendText, h0, h1]

/-- Claim C9: in the `/api/send-messages` background loop — both the flat
variant of src/server.js and the batched variant of src/unnamed/part_000
— every item increments exactly one of `successCount`/`failCount`, so
after a run over any list the two counters sum to its length. -/
theorem send_counts_conservation :
    (∀ (msgs : List MsgItem) (o : Nat → ItemOracle) (i : Nat),
      (loopCounts i msgs o).1 + (loopCounts i msgs o).2 = msgs.length) ∧
    (∀ (msgs : List MsgItem) (o : Nat → ItemOracle) (i : Nat),
      (runBatched msgs i o).2.1 + (runBatched msgs i o).2.2 = msgs.length) := by
  have flat : ∀ (msgs : List MsgItem) (o : Nat → ItemOracle) (i : Nat),
      (loopCounts i msgs o).1 + (loopCounts i msgs o).2 = msgs.length := by
    intro msgs o
    induction msgs with
    | nil => intro i; simp [loopCounts]
    | cons m rest ih =>
      intro i
      have := ih (i + 1)
      cases h : (itemRun i m (o i)).2 <;> simp [loopCounts, h] <;> omega
  refine ⟨flat, ?_⟩
  intro msgs o i
  have H : ∀ (n : Nat) (l : List MsgItem) (j : Nat), l.length ≤ n →
      (runBatched l j o).2.1 + (runBatched l j o).2.2 = l.length := by
    intro n
    induction n with
    | zero =>
      intro l j h
      cases l with
      | nil => simp [runBatched]
      | cons x xs => simp at h
    | succ n ih =>
      intro l j h
      cases l with
      | nil => simp [runBatched]
      | cons x xs =>
        have h1 := flat (x :: xs.take 19) o j
        have h2 := ih (xs.drop 19) (j + (x :: xs.take 19).length)
          (by simp [List.length_drop] at *; omega)
        simp [runBatched, List.length_take, List.length_drop] at *
        omega
  exact H msgs.length msgs i le_rfl

/-- Every action an item produces is tagged with that item's index. -/
theorem itemRun_indices (i : Nat) (m : MsgItem) (o : ItemOracle) :
    ∀ j ∈ itemIndices (itemRun i m o).1, j = i := by
  intro j hj
  cases hq : m.hasQr <;> cases he : o.encodeOk <;>
    cases h0 : o.sendOk 0 <;> cases h1 : o.sendOk 1 <;>
    simp [itemRun, itemIndices, actIdx, hq, he, h0, h1] at hj <;> omega

/-- The indices occurring in one batch block lie in the batch's index
range. -/
theorem runSeq_indices_bound :
    ∀ (l : List MsgItem) (i : Nat) (o : Nat → ItemOracle) (j : Nat),
      j ∈ itemIndices (runSeq i l o) → i ≤ j ∧ j < i + l.length := by
  intro l
  induction l with
  | nil => intro i o j hj; simp [runSeq, itemIndices] at hj
  | cons m rest ih =>
    intro i o j hj
    cases rest with
    | nil =>
      simp only [runSeq] at hj
      have := itemRun_indices i m (o i) j hj
      simp
      omega
    | cons m2 rest2 =>
      simp only [runSeq, itemIndices, List.filterMap_append, List.mem_append] at hj
      rcases hj with (hj | hj) | hj
      · have := itemRun_indices i m (o i) j hj
        simp
        omega
      · simp [actIdx] at hj
      · have := ih (i + 1) o j hj
        simp at *
        omega

/-- A list all of whose members are equal is weakly sorted. -/
theorem pairwise_le_of_all_eq (L : List Nat) (i : Nat)
    (h : ∀ j ∈ L, j = i) : L.Pairwise (· ≤ ·) := by
  induction L with
  | nil => exact List.Pairwise.nil
  | cons a t ih =>
    refine List.Pairwise.cons ?_ (ih fun j hj => h j (List.mem_cons_of_mem a hj))
    intro b hb
    have ha := h a (List.mem_cons_self a t)
    have hb2 := h b (List.mem_cons_of_mem a hb)
    omega

/-- Within one batch, the item indices of the action trace are weakly
increasing: the inner loop finishes item `i` (terminal outcome recorded)
before touching item `i + 1`. -/
theorem runSeq_pairwise :
    ∀ (l : List MsgItem) (i : Nat) (o : Nat → ItemOracle),
      (itemIndices (runSeq i l o)).Pairwise (· ≤ ·) := by
  intro l
  induction l with
  | nil => intro i o; simp [runSeq, itemIndices]
  | cons m rest ih =>
    intro i o
    cases rest with
    | nil =>
      simp only [runSeq]
      exact pairwise_le_of_all_eq _ i (itemRun_indices i m (o i))
    | cons m2 rest2 =>
      simp only [runSeq, itemIndices, List.filterMap_append]
      rw [List.pairwise_append]
      refine ⟨?_, ?_, ?_⟩
      · rw [List.pairwise_append]
        refine ⟨pairwise_le_of_all_eq _ i (itemRun_indices i m (o i)), ?_, ?_⟩
        · simp [actIdx]
        · simp [actIdx]
      · exact ih (i + 1) o
      · intro a ha b hb
        rw [List.mem_append] at ha
        rcases ha with ha | ha
        · have h1 := itemRun_indices i m (o i) a ha
          have h2 := runSeq_indices_bound (m2 :: rest2) (i + 1) o b hb
          omega
        · simp [actIdx] at ha

/-- The full batched trace has weakly increasing item indices and every
index at least the starting index: batches, and items inside them, are
processed strictly in submission order. -/
theorem runBatched_pairwise :
    ∀ (l : List MsgItem) (i : Nat) (o : Nat → ItemOracle),
      (itemIndices (runBatched l i o).1).Pairwise (· ≤ ·) ∧
      (∀ k ∈ itemIndices (runBatched l i o).1, i ≤ k) := by
  have H : ∀ (n : Nat) (l : List MsgItem) (i : Nat) (o : Nat → ItemOracle),
      l.length ≤ n →
      (itemIndices (runBatched l i o).1).Pairwise (· ≤ ·) ∧
      (∀ k ∈ itemIndices (runBatched l i o).1, i ≤ k) := by
    intro n
    induction n with
    | zero =>
      intro l i o h
      cases l with
      | nil => simp [runBatched, itemIndices]
      | cons x xs => simp at h
    | succ n ih =>
      intro l i o h
      cases l with
      | nil => simp [runBatched, itemIndices]
      | cons x xs =>
        have hlen : (xs.drop 19).length ≤ n := by
          simp [List.length_drop]
          simp at h
          omega
        have hrec := ih (xs.drop 19) (i + (x :: xs.take 19).length) o hlen
        have hseqb := fun j hj =>
          runSeq_indices_bound (x :: xs.take 19) i o j hj
        have hdelay :
            itemIndices (if (xs.drop 19).isEmpty then ([] : List Act)
              else [Act.batchDelay]) = [] := by
          cases (xs.drop 19).isEmpty <;> simp [itemIndices, actIdx]
        constructor
        · simp only [runBatched, itemIndices, List.filterMap_append]
          rw [List.pairwise_append]
          refine ⟨?_, ?_, ?_⟩
          · rw [List.pairwise_append]
            refine ⟨runSeq_pairwise _ i o, ?_, ?_⟩
            · simpa [itemIndices] using
                (hdelay ▸ List.Pairwise.nil :
                  (itemIndices (if (xs.drop 19).isEmpty then ([] : List Act)
                    else [Act.batchDelay])).Pairwise (· ≤ ·))
            · intro a ha b hb
              rw [← itemIndices, hdelay] at hb
              simp at hb
          · exact hrec.1
          · intro a ha b hb
            rw [List.mem_append] at ha
            rcases ha with ha | ha
            · have h1 := hseqb a ha
              have h2 := hrec.2 b hb
              omega
            · rw [← itemIndices, hdelay] at ha
              simp at ha
        · intro k hk
          simp only [runBatched, itemIndices, List.filterMap_append,
            List.mem_append] at hk
          rcases hk with (hk | hk) | hk
          · exact (hseqb k hk).1
          · rw [← itemIndices, hdelay] at hk
            simp at hk
          · have := hrec.2 k hk
            omega
  intro l i o
  exact H l.length l i o le_rfl

/-- Unfolding of one iteration of the batch loop. -/
theorem runBatched_acts (x : MsgItem) (xs : List MsgItem) (i : Nat)
    (o : Nat → ItemOracle) :
    (runBatched (x :: xs) i o).1 =
      runSeq i (x :: xs.take 19) o ++
        (if (xs.drop 19).isEmpty then [] else [Act.batchDelay]) ++
        (runBatched (xs.drop 19) (i + (x :: xs.take 19).length) o).1 := by
  simp [runBatched]

/-- `destroyClient` leaves the state name unchanged or forces
`DISCONNECTED`. -/
theorem connState_destroyClient (s : St) :
    (destroyClient s).connectionState = s.connectionState ∨
    (destroyClient s).connectionState = "DISCONNECTED" := by
  unfold destroyClient
  split <;> simp

/-- `initializeWhatsAppClient` leaves the state name unchanged or sets
`INITIALIZING`. -/
theorem connState_initClient (t : Nat) (s : St) :
    ((initClient t s).1).connectionState = s.connectionState ∨
    ((initClient t s).1).connectionState = "INITIALIZING" := by
  unfold initClient
  split
  · simp
  · split <;> simp

/-- The qr-data phase only writes state names from the code's fixed set. -/
theorem connState_onQrData (qr : String) (enc : Option String) (now : Nat)
    (s : St) :
    (onQrData qr enc now s).connectionState = s.connectionState ∨
    (onQrData qr enc now s).connectionState ∈ codeStates := by
  unfold onQrData
  split
  · rcases enc with _ | url <;> simp [codeStates]
  · simp

/-- The qr burst check leaves the state name or forces `DISCONNECTED`. -/
theorem connState_onQrFinish (s : St) :
    (onQrFinish s).connectionState = s.connectionState ∨
    (onQrFinish s).connectionState = "DISCONNECTED" := by
  unfold onQrFinish bumpUntracked
  split
  · rcases connState_destroyClient s with h | h <;> simp [h]
  · simp

/-- The qr handler only writes state names from the code's fixed set. -/
theorem connState_onQr (qr : String) (enc : Option String) (now : Nat)
    (s : St) :
    (onQr qr enc now s).connectionState = s.connectionState ∨
    (onQr qr enc now s).connectionState ∈ codeStates := by
  unfold onQr
  rcases connState_onQrFinish
    (onQrData qr enc now { s with qrAttempts := s.qrAttempts + 1 }) with h | h
  · rw [h]
    rcases connState_onQrData qr enc now
      { s with qrAttempts := s.qrAttempts + 1 } with h2 | h2
    · left
      rw [h2]
    · right
      exact h2
  · right
    rw [h]
    simp [codeStates]

/-- The ready handler always writes `CONNECTED`. -/
theorem connState_onReady (num : String) (name pic : Option String)
    (now : Nat) (s : St) :
    (onReady num name pic now s).connectionState = "CONNECTED" := rfl

/-- The grace-period dispatch writes `CONNECTED`, `DISCONNECTED`, or the
observed provider string verbatim. -/
theorem connState_applyLiveState (st : String) (s : St) :
    (applyLiveState st s).connectionState = "CONNECTED" ∨
    (applyLiveState st s).connectionState = "DISCONNECTED" ∨
    (applyLiveState st s).connectionState = st := by
  unfold applyLiveState
  split
  · simp
  · split
    · right; left; rfl
    · simp

/-- The liveness check leaves the state, writes a fixed name, or records
the provider string it observed. -/
theorem connState_checkActive (now : Nat) (res : Option String) (s : St) :
    (checkActiveConnection now res s).connectionState = s.connectionState ∨
    (checkActiveConnection now res s).connectionState ∈ codeStates ∨
    (∃ st, res = some st ∧
      (checkActiveConnection now res s).connectionState = st) := by
  unfold checkActiveConnection
  rcases res with _ | st
  · split
    · left; rfl
    · dsimp only
      split
      · right; left; simp [handleDisconnection, codeStates]
      · left; rfl
  · split
    · left; rfl
    · rcases connState_applyLiveState st
        { s with lastKnownState := some st, lastActiveTimestamp := now } with
        h | h | h
      · right; left; simp [h, codeStates]
      · right; left; simp [h, codeStates]
      · right; right; exact ⟨st, rfl, h⟩

/-- The monitor body only writes fixed state names. -/
theorem connState_onMonitor (res : Option String) (now : Nat) (s : St) :
    (onMonitor res now s).connectionState = s.connectionState ∨
    (onMonitor res now s).connectionState ∈ codeStates := by
  unfold onMonitor
  split
  · rcases connState_destroyClient
      { s with qrCodeData := "", connectionState := "QR_EXPIRED" } with h | h
    · right; simp [bumpUntracked, h, codeStates]
    · right; simp [bumpUntracked, h, codeStates]
  · split
    · split
      · rcases res with _ | st
        · dsimp only
          split
          · right; simp [handleDisconnection, codeStates]
          · left; rfl
        · left; rfl
      · right; simp [codeStates]
    · split
      · rcases connState_initClient now (capAttempts (bumpAttempts s)) with h | h
        · left
          rw [h]
          simp [capAttempts, bumpAttempts]
          split <;> simp
        · right; simp [h, codeStates]
      · left; rfl

/-- One step writes no connection-state name outside the code's fixed set
other than a provider string carried by the event itself. -/
theorem connState_step (e : Ev) (s : St) :
    (step e s).connectionState = s.connectionState ∨
    (step e s).connectionState ∈ codeStates ∨
    (step e s).connectionState ∈ evStates e := by
  cases e with
  | qrEvent qr enc now =>
    simp only [step]
    split
    · left; rfl
    · rcases connState_onQr qr enc now s with h | h
      · left; exact h
      · right; left; exact h
  | authDone =>
    simp only [step]
    split
    · left; rfl
    · right; left; simp [codeStates]
  | authFail =>
    simp only [step]
    split
    · left; rfl
    · right; left; simp [bumpUntracked, handleDisconnection, codeStates]
  | readyEv num name pic now =>
    simp only [step]
    split
    · left; rfl
    · right; left; simp [connState_onReady, codeStates]
  | disconn =>
    simp only [step]
    split
    · left; rfl
    · right; left; simp [handleDisconnection, codeStates]
  | changeState st =>
    simp only [step]
    split
    · left; rfl
    · split
      · right; left; simp [handleDisconnection, codeStates]
      · left; rfl
  | changeBattery now =>
    simp only [step]
    split
    · left; rfl
    · left; rfl
  | settleInit ok =>
    simp only [step]
    split
    · left; rfl
    · split
      · left; rfl
      · right; left
        simp [ensureRecon, handleDisconnection, codeStates]
        split <;> simp [codeStates]
  | reconFire now =>
    simp only [step]
    split
    · left; rfl
    · rcases connState_initClient now (capAttempts (bumpAttempts
        { s with reconTimers := s.reconTimers - 1 })) with h | h
      · left
        rw [h]
        simp [capAttempts, bumpAttempts]
        split <;> simp
      · right; left; simp [h, codeStates]
  | untrackedFire now =>
    simp only [step]
    split
    · left; rfl
    · rcases connState_initClient now
        { s with untrackedTimers := s.untrackedTimers - 1 } with h | h
      · left; rw [h]
      · right; left; simp [h, codeStates]
  | connCheckFire res now =>
    simp only [step]
    split
    · rcases connState_checkActive now res s with h | h | ⟨st, hres, h⟩
      · left; exact h
      · right; left; exact h
      · right; right
        subst hres
        simp [evStates, h]
    · left; rfl
  | monitorFire res now =>
    simp only [step]
    rcases connState_onMonitor res now s with h | h
    · left; exact h
    · right; left; exact h

/-- `destroyClient` never touches the tracked reconnection slot. -/
theorem recon_destroyClient (s : St) :
    (destroyClient s).reconTimers = s.reconTimers := by
  unfold destroyClient
  split <;> rfl

/-- `initializeWhatsAppClient` never touches the tracked reconnection
slot. -/
theorem recon_initClient (t : Nat) (s : St) :
    ((initClient t s).1).reconTimers = s.reconTimers := by
  unfold initClient
  split
  · rfl
  · split <;> rfl

/-- `handleDisconnection` keeps the tracked slot at most one deep. -/
theorem recon_handleDisconnection (s : St) (h : s.reconTimers ≤ 1) :
    (handleDisconnection s).reconTimers ≤ 1 := by
  simp only [handleDisconnection]
  split <;> omega

/-- The guarded re-scheduling keeps the tracked slot at most one deep. -/
theorem recon_ensureRecon (s : St) (h : s.reconTimers ≤ 1) :
    (ensureRecon s).reconTimers ≤ 1 := by
  unfold ensureRecon
  split
  · simp
  · exact h

/-- The attempt-counter bookkeeping never touches the tracked slot. -/
theorem recon_capBump (s : St) (h : s.reconTimers ≤ 1) :
    (capAttempts (bumpAttempts s)).reconTimers ≤ 1 := by
  unfold capAttempts bumpAttempts
  split <;> simpa

/-- The grace-period dispatch keeps the tracked slot at most one deep. -/
theorem recon_applyLiveState (st : String) (s : St) (h : s.reconTimers ≤ 1) :
    (applyLiveState st s).reconTimers ≤ 1 := by
  unfold applyLiveState
  split
  · simpa
  · split
    · exact recon_handleDisconnection s h
    · simpa

/-- The liveness check keeps the tracked slot at most one deep. -/
theorem recon_checkActive (now : Nat) (res : Option String) (s : St)
    (h : s.reconTimers ≤ 1) :
    (checkActiveConnection now res s).reconTimers ≤ 1 := by
  unfold checkActiveConnection
  rcases res with _ | st
  · split
    · exact h
    · dsimp only
      split
      · exact recon_handleDisconnection s h
      · exact h
  · split
    · exact h
    · exact recon_applyLiveState st _ h

/-- The qr handler keeps the tracked slot at most one deep. -/
theorem recon_onQr (qr : String) (enc : Option String) (now : Nat) (s : St)
    (h : s.reconTimers ≤ 1) :
    (onQr qr enc now s).reconTimers ≤ 1 := by
  unfold onQr onQrFinish bumpUntracked
  have hd : ∀ u : St, u.reconTimers ≤ 1 →
      (onQrData qr enc now u).reconTimers ≤ 1 := by
    intro u hu
    unfold onQrData
    split
    · rcases enc with _ | url <;> simpa
    · exact hu
  split
  · rename_i hcond
    simpa [recon_destroyClient] using
      hd { s with qrAttempts := s.qrAttempts + 1 } (by simpa)
  · exact hd { s with qrAttempts := s.qrAttempts + 1 } (by simpa)

/-- The monitor body keeps the tracked slot at most one deep. -/
theorem recon_onMonitor (res : Option String) (now : Nat) (s : St)
    (h : s.reconTimers ≤ 1) :
    (onMonitor res now s).reconTimers ≤ 1 := by
  unfold onMonitor bumpUntracked
  split
  · simpa [recon_destroyClient]
  · split
    · split
      · rcases res with _ | st
        · dsimp only
          split
          · exact recon_handleDisconnection s h
          · exact h
        · simpa
      · simpa
    · split
      · rw [recon_initClient]
        exact recon_capBump s h
      · exact h

/-- One step of the Supervisor keeps at most one tracked reconnection
timeout pending: every scheduling site is guarded by the
`if (!reconnectionTimer)` check. -/
theorem recon_step (e : Ev) (s : St) (h : s.reconTimers ≤ 1) :
    (step e s).reconTimers ≤ 1 := by
  cases e with
  | qrEvent qr enc now =>
    simp only [step]
    split
    · exact h
    · exact recon_onQr qr enc now s h
  | authDone =>
    simp only [step]
    split
    · exact h
    · simpa
  | authFail =>
    simp only [step]
    split
    · exact h
    · simpa [bumpUntracked] using recon_handleDisconnection s h
  | readyEv num name pic now =>
    simp only [step]
    split
    · exact h
    · simpa [onReady]
  | disconn =>
    simp only [step]
    split
    · exact h
    · exact recon_handleDisconnection s h
  | changeState st =>
    simp only [step]
    split
    · exact h
    · split
      · exact recon_handleDisconnection _ (by simpa)
      · simpa
  | changeBattery now =>
    simp only [step]
    split
    · exact h
    · simpa
  | settleInit ok =>
    simp only [step]
    split
    · exact h
    · split
      · exact h
      · exact recon_ensureRecon _ (recon_handleDisconnection s h)
  | reconFire now =>
    simp only [step]
    split
    · exact h
    · rw [recon_initClient]
      exact recon_capBump _ (by simp; omega)
  | untrackedFire now =>
    simp only [step]
    split
    · exact h
    · rw [recon_initClient]
      simpa
  | connCheckFire res now =>
    simp only [step]
    split
    · exact recon_checkActive now res s h
    · exact h
  | monitorFire res now =>
    simp only [step]
    exact recon_onMonitor res now s h

/-- Provider strings of a run decompose head/tail. -/
theorem providerStrings_cons (e : Ev) (t : List Ev) :
    providerStrings (e :: t) = evStates e ++ providerStrings t := by
  simp [providerStrings]

/-- Over any event sequence, the connection state stays in the code's
fixed name set or is a provider string delivered by some event of the
run. -/
theorem connState_runEvs :
    ∀ (evs : List Ev) (s : St),
      (runEvs evs s).connectionState = s.connectionState ∨
      (runEvs evs s).connectionState ∈ codeStates ∨
      (runEvs evs s).connectionState ∈ providerStrings evs := by
  intro evs
  induction evs with
  | nil => intro s; left; rfl
  | cons e t ih =>
    intro s
    have hrest := ih (step e s)
    have hstep := connState_step e s
    have hrun : runEvs (e :: t) s = runEvs t (step e s) := rfl
    rw [hrun, providerStrings_cons]
    rcases hrest with h | h | h
    · rw [h]
      rcases hstep with h2 | h2 | h2
      · left; exact h2
      · right; left; exact h2
      · right; right; exact List.mem_append_left _ h2
    · right; left; exact h
    · right; right; exact List.mem_append_right _ h

/-- The at-most-one bound on the tracked reconnection slot is preserved by
whole runs. -/
theorem recon_runEvs :
    ∀ (evs : List Ev) (s : St), s.reconTimers ≤ 1 →
      (runEvs evs s).reconTimers ≤ 1 := by
  intro evs
  induction evs with
  | nil => intro s h; exact h
  | cons e t ih => intro s h; exact ih (step e s) (recon_step e s h)

/-- The boot call leaves the state name `INITIALIZING`. -/
theorem startup_state (t0 : Nat) :
    (startup t0).connectionState = "INITIALIZING" := by
  rcases connState_initClient t0 bootState with h | h
  · rw [show startup t0 = (initClient t0 bootState).1 from rfl, h]; rfl
  · exact h

/-- The boot call schedules no tracked reconnection timeout. -/
theorem startup_recon (t0 : Nat) : (startup t0).reconTimers = 0 := by
  rw [show startup t0 = (initClient t0 bootState).1 from rfl,
    recon_initClient]
  rfl

/-- Counterexample for C1: after boot, a `ready` event followed by a
connection check observing the provider state CONNECTING leaves
`connectionState = CONNECTING`, which is outside both the specification's
nine values and the code's own literal set; and a single `auth_failure`
event leaves the state `DISCONNECTED` with TWO pending reinitialization
timeouts (the tracked one plus the handler's extra anonymous one), not
exactly one. -/
theorem connectionState_counterexample :
    ((runEvs [Ev.readyEv "15551234567" none none 30001,
              Ev.connCheckFire (some "CONNECTING") 30002]
        (startup 30000)).connectionState ∉ specStates ∧
     (runEvs [Ev.readyEv "15551234567" none none 30001,
              Ev.connCheckFire (some "CONNECTING") 30002]
        (startup 30000)).connectionState ∉ codeStates) ∧
    ((runEvs [Ev.authFail] (startup 30000)).connectionState = "DISCONNECTED" ∧
     (runEvs [Ev.authFail] (startup 30000)).reconTimers = 1 ∧
     (runEvs [Ev.authFail] (startup 30000)).untrackedTimers = 1) := by
  decide

/-- Claim C1 as amended: over every sequence of provider events and timer
firings from boot, the connection state is one of the code's literal state
names (`INITIALIZING, QR_READY, QR_ERROR, QR_EXPIRED, AUTHENTICATED,
CONNECTED, DISCONNECTED, RESETTING, LOGGED_OUT, GENERATING_QR`) or a raw
provider-reported state recorded by a liveness check; and at every moment
at most one tracked reconnection timeout is pending (untracked
reinitialization timeouts may coexist with it). -/
theorem connectionState_amended :
    ∀ (t0 : Nat) (evs : List Ev),
      ((runEvs evs (startup t0)).connectionState ∈ codeStates ∨
       (runEvs evs (startup t0)).connectionState ∈ providerStrings evs) ∧
      (runEvs evs (startup t0)).reconTimers ≤ 1 := by
  intro t0 evs
  constructor
  · rcases connState_runEvs evs (startup t0) with h | h | h
    · left
      rw [h, startup_state]
      simp [codeStates]
    · left; exact h
    · right; exact h
  · exact recon_runEvs evs (startup t0) (by rw [startup_recon]; omega)

/-- Outcome records of a batch carry indices from the batch's range. -/
theorem batchOutcomes_mem :
    ∀ (b : List MsgItem) (i : Nat) (ok : Nat → Bool) (p : Nat × Bool),
      p ∈ batchOutcomes i b ok → i ≤ p.1 ∧ p.1 < i + b.length := by
  intro b
  induction b with
  | nil => intro i ok p hp; simp [batchOutcomes] at hp
  | cons m rest ih =>
    intro i ok p hp
    simp only [batchOutcomes, List.mem_cons] at hp
    rcases hp with hp | hp
    · subst hp; simp
    · have := ih (i + 1) ok p hp
      simp at *
      omega

/-- Index extraction commutes with building outcome actions. -/
theorem bIndices_map_bOut (L : List (Nat × Bool)) :
    bIndices (L.map (fun p => BAct.bOut p.1 p.2)) = L.map (fun p => p.1) := by
  induction L with
  | nil => rfl
  | cons p t ih => simp [bIndices, List.filterMap_cons] at *; exact ih

/-- The `/api/send-bulk` trace completes batches strictly in sequence:
whatever order the scheduler finishes the items of one batch in, every
terminal outcome of batch `k` precedes every terminal outcome of batch
`k + 1` (indices compared by their batch number `idx / 8`), and all
indices are at least the starting index. -/
theorem sendBulk_pairwise :
    ∀ (n : Nat) (l : List MsgItem) (i : Nat) (ok : Nat → Bool)
      (σ : List (Nat × Bool) → List (Nat × Bool)),
      (∀ x, List.Perm (σ x) x) → l.length ≤ n → 8 ∣ i →
      (bIndices (sendBulkGo l i ok σ)).Pairwise (fun a b => a / 8 ≤ b / 8) ∧
      (∀ k ∈ bIndices (sendBulkGo l i ok σ), i ≤ k) := by
  intro n
  induction n with
  | zero =>
    intro l i ok σ hσ hl hi
    cases l with
    | nil => simp [sendBulkGo, bIndices]
    | cons x xs => simp at hl
  | succ n ih =>
    intro l i ok σ hσ hl hi
    cases l with
    | nil => simp [sendBulkGo, bIndices]
    | cons x xs =>
      have hblock : ∀ k ∈ (σ (batchOutcomes i (x :: xs.take 7) ok)).map
          (fun p => p.1), i ≤ k ∧ k < i + 8 := by
        intro k hk
        rw [List.mem_map] at hk
        obtain ⟨p, hp, hpk⟩ := hk
        have hp2 := (hσ (batchOutcomes i (x :: xs.take 7) ok)).mem_iff.mp hp
        have := batchOutcomes_mem (x :: xs.take 7) i ok p hp2
        have hlen : (x :: xs.take 7).length ≤ 8 := by simp
        omega
      have hdelay : bIndices (if (xs.drop 7).isEmpty then ([] : List BAct)
          else [BAct.bDelay]) = [] := by
        cases (xs.drop 7).isEmpty <;> simp [bIndices]
      have hrest :
          (bIndices (sendBulkGo (xs.drop 7)
            (i + (x :: xs.take 7).length) ok σ)).Pairwise
              (fun a b => a / 8 ≤ b / 8) ∧
          (∀ k ∈ bIndices (sendBulkGo (xs.drop 7)
            (i + (x :: xs.take 7).length) ok σ),
            i + (x :: xs.take 7).length ≤ k) := by
        cases hemp : xs.drop 7 with
        | nil => simp [sendBulkGo, bIndices]
        | cons y ys =>
          have hlen7 : 7 < xs.length := by
            have := congrArg List.length hemp
            simp [List.length_drop] at this
            omega
          have hb8 : (x :: xs.take 7).length = 8 := by
            simp
            omega
          rw [← hemp]
          exact ih (xs.drop 7) (i + (x :: xs.take 7).length) ok σ hσ
            (by simp [List.length_drop]; simp at hl; omega)
            (by rw [hb8]; omega)
      constructor
      · simp only [sendBulkGo, bIndices, List.filterMap_append]
        rw [← bIndices, ← bIndices, ← bIndices, bIndices_map_bOut, hdelay]
        rw [List.pairwise_append]
        refine ⟨?_, ?_, ?_⟩
        · rw [List.pairwise_append]
          refine ⟨?_, List.Pairwise.nil, by simp⟩
          refine List.pairwise_of_forall_mem_list ?_
          intro a ha b hb
          have h1 := hblock a ha
          have h2 := hblock b hb
          omega
        · exact hrest.1
        · intro a ha b hb
          rw [List.mem_append] at ha
          rcases ha with ha | ha
          · have h1 := hblock a ha
            have h2 := hrest.2 b hb
            have hbl : 1 ≤ (x :: xs.take 7).length := by simp
            have hbl2 : (x :: xs.take 7).length ≤ 8 := by simp
            obtain ⟨q, hq⟩ := hi
            omega
          · simp at ha
      · intro k hk
        simp only [sendBulkGo, bIndices, List.filterMap_append] at hk
        rw [← bIndices, ← bIndices, ← bIndices, bIndices_map_bOut, hdelay] at hk
        simp only [List.mem_append] at hk
        rcases hk with (hk | hk) | hk
        · exact (hblock k hk).1
        · simp at hk
        · have := hrest.2 k hk
          have : 1 ≤ (x :: xs.take 7).length := by simp
          omega

/-- Claim C2: the Bulk Dispatch Engine processes batches strictly in
sequence.  For the batched `/api/send-messages` engine the item indices of
the whole action trace are weakly increasing, so no action (in particular
no first attempt) of a later item precedes the terminal outcome of an
earlier one, and a 45-item job produces exactly the spec schedule: batches
of 20, 20 and 5 in order, with the inter-batch delay after the first and
second batch only.  For the `/api/send-bulk` engine, whatever order the
scheduler completes the promises of one batch of 8 in, every terminal
outcome of batch k precedes every terminal outcome of batch k + 1. -/
theorem batches_sequential_and_45_case :
    (∀ (msgs : List MsgItem) (o : Nat → ItemOracle),
      (itemIndices (runBatched msgs 0 o).1).Pairwise (· ≤ ·)) ∧
    (∀ (msgs : List MsgItem) (o : Nat → ItemOracle), msgs.length = 45 →
      (runBatched msgs 0 o).1 = specBatchSchedule msgs o ∧
      (msgs.take 20).length = 20 ∧ ((msgs.drop 20).take 20).length = 20 ∧
      (msgs.drop 40).length = 5) ∧
    (∀ (l : List MsgItem) (ok : Nat → Bool)
       (σ : List (Nat × Bool) → List (Nat × Bool)),
      (∀ x, List.Perm (σ x) x) →
      (bIndices (sendBulkGo l 0 ok σ)).Pairwise (fun a b => a / 8 ≤ b / 8)) := by
  refine ⟨?_, ?_, ?_⟩
  · intro msgs o
    exact (runBatched_pairwise msgs 0 o).1
  · intro msgs o h
    cases msgs with
    | nil => simp at h
    | cons x xs =>
      have hxs : xs.length = 44 := by simpa using h
      have hd1 : (xs.drop 19).length = 25 := by simp [hxs]
      obtain ⟨y, ys, hy⟩ : ∃ y ys, xs.drop 19 = y :: ys := by
        cases hmm : xs.drop 19 with
        | nil => rw [hmm] at hd1; simp at hd1
        | cons y ys => exact ⟨y, ys, rfl⟩
      have hys : ys.length = 24 := by
        rw [hy] at hd1; simpa using hd1
      have hd2 : (ys.drop 19).length = 5 := by simp [hys]
      obtain ⟨z, zs, hz⟩ : ∃ z zs, ys.drop 19 = z :: zs := by
        cases hmm : ys.drop 19 with
        | nil => rw [hmm] at hd2; simp at hd2
        | cons z zs => exact ⟨z, zs, rfl⟩
      have hzs : zs.length = 4 := by
        rw [hz] at hd2; simpa using hd2
      have l1 : (x :: xs.take 19).length = 20 := by simp [hxs]
      have l2 : (y :: ys.take 19).length = 20 := by simp [hys]
      have l3 : zs.take 19 = zs := List.take_of_length_le (by omega)
      have l4 : zs.drop 19 = ([] : List MsgItem) := List.drop_eq_nil_of_le (by omega)
      have h39 : xs.drop 39 = z :: zs := by
        have hdd : xs.drop 39 = (xs.drop 19).drop 20 := by
          rw [List.drop_drop]
        rw [hdd, hy]
        exact hz
      refine ⟨?_, by simp [hxs], ?_, ?_⟩
      · rw [runBatched_acts, hy, runBatched_acts, hz, runBatched_acts, l4]
        simp only [specBatchSchedule, List.take_succ_cons, List.drop_succ_cons]
        simp [runBatched, l1, l2, l3, hy, hz, h39]
      · have hdt : (x :: xs).drop 20 = y :: ys := by
          rw [List.drop_succ_cons]
          exact hy
        rw [hdt]
        simp [hys]
      · have hdt : (x :: xs).drop 40 = z :: zs := by
          rw [List.drop_succ_cons]
          exact h39
        rw [hdt]
        simp [hzs]

  · intro l ok σ hσ
    exact (sendBulk_pairwise l.length l 0 ok σ hσ le_rfl (dvd_zero 8)).1

/-- Witness for C2: the 45-item scenario at a concrete job of 45 blank
items with an all-success oracle, and the send-bulk sequencing at the
identity scheduler. -/
theorem batches_sequential_and_45_case_witness :
    ((List.replicate 45 (MsgItem.mk [] false)).length = 45 ∧
     ((runBatched (List.replicate 45 (MsgItem.mk [] false)) 0
         (fun _ => ItemOracle.mk true (fun _ => true))).1 =
       specBatchSchedule (List.replicate 45 (MsgItem.mk [] false))
         (fun _ => ItemOracle.mk true (fun _ => true)) ∧
      ((List.replicate 45 (MsgItem.mk [] false)).take 20).length = 20 ∧
      (((List.replicate 45 (MsgItem.mk [] false)).drop 20).take 20).length = 20 ∧
      ((List.replicate 45 (MsgItem.mk [] false)).drop 40).length = 5)) ∧
    ((∀ x : List (Nat × Bool), List.Perm (id x) x) ∧
     (bIndices (sendBulkGo (List.replicate 45 (MsgItem.mk [] false)) 0
         (fun _ => true) id)).Pairwise (fun a b => a / 8 ≤ b / 8)) :=
  ⟨⟨by simp, batches_sequential_and_45_case.2.1 _ _ (by simp)⟩,
   ⟨fun x => List.Perm.refl x,
    batches_sequential_and_45_case.2.2 _ _ id (fun x => List.Perm.refl x)⟩⟩
